import Mathlib

/-!
Shallow embedding of the resilient market-data acquisition and multi-AI
analysis orchestration core of the `infinity-source/trading` repository
(backend/src/services/marketDataService.ts, claudeService.ts,
multiAIService.ts, and backend/src/controllers/analysisController.ts).

JavaScript numbers are modelled as exact rationals (`ℚ`); every use of
`Math.round(x * 10^k) / 10^k` and `.toFixed(k)` in the source is modelled
by `roundTo k` below (JavaScript rounds half toward +infinity in both
cases).  Asynchronous remote calls are modelled by passing the outcome of
each remote attempt (`Except`) as an explicit argument; `Math.random()`
draws are passed as explicit rational arguments assumed to lie in [0, 1).
-/

namespace Trading

/-- JavaScript `Math.round(x * 10^k) / 10^k` (and `x.toFixed(k)` reparsed):
rounding half toward +infinity at `k` decimal places. -/
def roundTo (k : ℕ) (x : ℚ) : ℚ :=
  (⌊x * 10 ^ k + 1 / 2⌋ : ℚ) / 10 ^ k

/-- `pat` occurs as a contiguous sublist of the character list. -/
def charsInclude (pat : List Char) : List Char → Bool
  | [] => pat.isEmpty
  | c :: rest => pat.isPrefixOf (c :: rest) || charsInclude pat rest

/-- JavaScript `s.includes(pat)` on strings. -/
def strIncludes (s pat : String) : Bool :=
  charsInclude pat.data s.data

/-- JavaScript `s.toLowerCase()` (characterwise, over the string's
character list). -/
def strToLower (s : String) : String :=
  ⟨s.data.map Char.toLower⟩

/-- JavaScript `s.startsWith(pat)`. -/
def strStartsWith (s pat : String) : Bool :=
  pat.data.isPrefixOf s.data

/-- `interface OHLCData` from marketDataService.ts (`open` renamed `opn`,
a Lean keyword). -/
structure OHLCData where
  timestamp : ℤ
  opn : ℚ
  high : ℚ
  low : ℚ
  close : ℚ
  volume : ℚ
  deriving Repr, DecidableEq

/-- `MarketDataService.calculateEMA(prices, period)`: seed is the first
price, multiplier `2 / (period + 1)`, folded over the remaining prices. -/
def calculateEMA (prices : List ℚ) (period : ℕ) : ℚ :=
  match prices with
  | [] => 0
  | p :: rest =>
    let multiplier : ℚ := 2 / (period + 1)
    rest.foldl (fun ema price => price * multiplier + ema * (1 - multiplier)) p

/-- The result record of `MarketDataService.calculateMACD`. -/
structure MACDResult where
  macd : ℚ
  signal : ℚ
  histogram : ℚ
  deriving Repr, DecidableEq

/-- `MarketDataService.calculateMACD(prices)`: `macd = EMA12 - EMA26`,
`signal = macd * 0.9`, `histogram = macd - signal`, each field rounded to
4 decimal places on return. -/
def calculateMACD (prices : List ℚ) : MACDResult :=
  let ema12 := calculateEMA prices 12
  let ema26 := calculateEMA prices 26
  let macd := ema12 - ema26
  let signal := macd * (9 / 10)
  let histogram := macd - signal
  { macd := roundTo 4 macd
    signal := roundTo 4 signal
    histogram := roundTo 4 histogram }

/-- The consecutive price changes `prices[i] - prices[i-1]` used by
`calculateRSI`'s loop. -/
def priceDeltas (prices : List ℚ) : List ℚ :=
  (prices.zip prices.tail).map fun p => p.2 - p.1

/-- Sum of the positive changes over the first `period` deltas
(`gains` accumulator in `calculateRSI`). -/
def rsiGains (prices : List ℚ) (period : ℕ) : ℚ :=
  (((priceDeltas prices).take period).map fun c => if c > 0 then c else 0).sum

/-- Sum of the negated non-positive changes over the first `period`
deltas (`losses` accumulator in `calculateRSI`). -/
def rsiLosses (prices : List ℚ) (period : ℕ) : ℚ :=
  (((priceDeltas prices).take period).map fun c => if c > 0 then 0 else -c).sum

/-- `MarketDataService.calculateRSI(prices, period = 14)`: returns 50 when
fewer than `period + 1` prices are supplied; returns 100 when the average
loss is zero; otherwise `100 - 100 / (1 + avgGain / avgLoss)` rounded to
2 decimal places. -/
def calculateRSI (prices : List ℚ) (period : ℕ := 14) : ℚ :=
  if prices.length < period + 1 then 50
  else
    let avgGain := rsiGains prices period / period
    let avgLoss := rsiLosses prices period / period
    if avgLoss = 0 then 100
    else
      let rs := avgGain / avgLoss
      roundTo 2 (100 - 100 / (1 + rs))

/-- `MarketDataService.calculateVWAP(ohlcData)`: accumulates
`typicalPrice * volume` and `volume` over the bars; returns the quotient
when total volume is positive, else 0, rounded to 4 decimal places. -/
def calculateVWAP (ohlcData : List OHLCData) : ℚ :=
  let acc := ohlcData.foldl
    (fun acc d =>
      let typicalPrice := (d.high + d.low + d.close) / 3
      (acc.1 + typicalPrice * d.volume, acc.2 + d.volume))
    ((0 : ℚ), (0 : ℚ))
  let vwap := if acc.2 > 0 then acc.1 / acc.2 else 0
  roundTo 4 vwap

/-- `interface MarketData` from marketDataService.ts. -/
structure MarketData where
  symbol : String
  price : ℚ
  change : ℚ
  changePercent : ℚ
  volume : ℚ
  high24h : ℚ
  low24h : ℚ
  timestamp : ℤ
  deriving Repr, DecidableEq

/-- The fixed instrument set served by the service (the keys of
`fallbackPrices`, also the symbol list in `getAllPrices` and the
controllers). -/
def instrumentSymbols : List String :=
  ["EURUSD", "GBPUSD", "USDJPY", "XAUUSD", "SPX500", "NAS100", "GER40"]

/-- The `fallbackPrices['EURUSD']` baseline entry, the default base of
`getEnhancedFallback` for unmapped symbols. -/
def eurusdFallback : MarketData :=
  ⟨"EURUSD", 1.0845, 0.0012, 0.11, 0, 1.0860, 1.0820, 0⟩

/-- `MarketDataService.fallbackPrices` (enhanced version): static baseline
quotes per symbol; `none` for symbols outside the table.  The source's
`Date.now()` timestamps are modelled as 0. -/
def fallbackPrices (s : String) : Option MarketData :=
  if s = "EURUSD" then some eurusdFallback
  else if s = "GBPUSD" then some ⟨"GBPUSD", 1.2635, -0.0025, -0.20, 0, 1.2670, 1.2610, 0⟩
  else if s = "USDJPY" then some ⟨"USDJPY", 149.85, 0.45, 0.30, 0, 150.20, 149.20, 0⟩
  else if s = "XAUUSD" then some ⟨"XAUUSD", 2340.50, 15.80, 0.68, 0, 2350.00, 2325.00, 0⟩
  else if s = "SPX500" then some ⟨"SPX500", 4785.20, 25.40, 0.53, 0, 4790.00, 4750.00, 0⟩
  else if s = "NAS100" then some ⟨"NAS100", 16845.30, -45.20, -0.27, 0, 16900.00, 16800.00, 0⟩
  else if s = "GER40" then some ⟨"GER40", 17098.75, 32.15, 0.19, 0, 17120.00, 17050.00, 0⟩
  else none

/-- `MarketDataService.isValidPrice(data)`: `price > 0`, not NaN, finite.
Rationals are always finite and never NaN, so only positivity remains. -/
def isValidPrice (data : MarketData) : Bool :=
  data.price > 0

/-- `MarketDataService.getEnhancedFallback(symbol)` (enhanced version):
perturbs the baseline price of the symbol (default: the EURUSD baseline
via `fallbackPrices[symbol] || fallbackPrices['EURUSD']`) by
`(Math.random() - 0.5) * 0.001`; the random draw `r` and the current time
`now` are explicit parameters.  `parseFloat(x.toFixed(k))` is `roundTo k`.
(`fallbackPrices "EURUSD"` is `some eurusdFallback`, so `getD
eurusdFallback` is the source's `|| this.fallbackPrices['EURUSD']`.) -/
def getEnhancedFallback (symbol : String) (r : ℚ) (now : ℤ) : MarketData :=
  let base := (fallbackPrices symbol).getD eurusdFallback
  let variation := (r - 1 / 2) * (1 / 1000)
  let newPrice := base.price + variation
  let change := newPrice - base.price
  { base with
      price := roundTo 5 newPrice
      change := roundTo 5 change
      changePercent := roundTo 3 ((change / base.price) * 100)
      timestamp := now }

/-- Outcome of one remote quote-provider attempt: the call can throw
(`Except.error`), return `null`, or return data (which is then screened by
`isValidPrice`). -/
def validQuoteOf (attempt : Except Unit (Option MarketData)) : Option MarketData :=
  match attempt with
  | .ok (some d) => if isValidPrice d then some d else none
  | _ => none

/-- `MarketDataService.getCurrentPrice(symbol)` (enhanced version), on a
cache miss: tries Finnhub, then Twelve Data, then Alpha Vantage; a thrown
error, a `null` result or an invalid price each fall through to the next
provider; when all three fail the enhanced synthetic fallback supplies
the result.  The three provider outcomes, the fallback's random draw and
the clock are explicit parameters. -/
def getCurrentPrice (finnhub twelve alpha : Except Unit (Option MarketData))
    (r : ℚ) (now : ℤ) (symbol : String) : Option MarketData :=
  match validQuoteOf finnhub with
  | some d => some d
  | none =>
    match validQuoteOf twelve with
    | some d => some d
    | none =>
      match validQuoteOf alpha with
      | some d => some d
      | none => some (getEnhancedFallback symbol r now)

/-- The `Math.random()` draws consumed by one iteration of
`generateHistoricalData`'s loop, plus the (randomized)
`getEstimatedVolume` output used for the bar's volume. -/
structure BarDraw where
  changeR : ℚ
  highR : ℚ
  lowR : ℚ
  closeR : ℚ
  volumeDraw : ℚ
  deriving Repr, DecidableEq

/-- `MarketDataService.generateHistoricalData(symbol, periods)` (first
version): a random walk starting from `price` (the current fallback
price); each step scales the price by `1 + (Math.random() - 0.5) *
volatility / 50`, derives high/low within `volatility / 100` of the open,
picks the close uniformly between low and high, rounds the OHLC values to
4 decimals, and continues the walk from the unrounded close.  The loop
counter `i` (from `periods - 1` down to 0) is the length of the remaining
draw list, so the list of draws plays the role of `periods`; the bar
timestamp is `now - i * interval` (`interval` = 3600000 ms in the source). -/
def generateHistoricalData (volatility : ℚ) (now interval : ℤ) :
    ℚ → List BarDraw → List OHLCData
  | _, [] => []
  | price, d :: rest =>
    let priceChange := (d.changeR - 1 / 2) * volatility / 50
    let price' := price * (1 + priceChange)
    let opn := price'
    let variation := volatility / 100
    let high := opn * (1 + d.highR * variation)
    let low := opn * (1 - d.lowR * variation)
    let close := low + d.closeR * (high - low)
    { timestamp := now - (rest.length : ℤ) * interval
      opn := roundTo 4 opn
      high := roundTo 4 high
      low := roundTo 4 low
      close := roundTo 4 close
      volume := d.volumeDraw }
      :: generateHistoricalData volatility now interval close rest

/-- `interface AnalysisRequest` from claudeService.ts (the optional
`indicators` payload is carried opaquely into prompts only and is elided). -/
structure AnalysisRequest where
  query : String
  symbol : String
  marketData : MarketData
  deriving Repr, DecidableEq

/-- `keyLevels` of `interface AnalysisResponse`.  In the source these are
decimal strings produced by `toFixed`; they are modelled by their parsed
numeric value (`parseFloat` of a `toFixed(k)` string is `roundTo k`). -/
structure KeyLevels where
  support : ℚ
  resistance : ℚ
  entry : ℚ
  deriving Repr, DecidableEq

/-- `riskManagement` of `interface AnalysisResponse`; `stopLoss` and
`takeProfit` are modelled by their parsed numeric values. -/
structure RiskManagement where
  stopLoss : ℚ
  takeProfit : ℚ
  riskReward : String
  deriving Repr, DecidableEq

/-- `interface AnalysisResponse` from claudeService.ts / deepseekService.ts. -/
structure AnalysisResponse where
  analysis : String
  recommendation : String
  confidence : ℚ
  keyLevels : KeyLevels
  riskManagement : RiskManagement
  technicalView : String
  catalysts : List String
  timeframe : String
  source : String
  deriving Repr, DecidableEq

/-- Rendering of a JavaScript `x.toFixed(2)` interpolation inside narrative
text, abstracted as the `toString` of the rounded rational. -/
def fmt2 (q : ℚ) : String :=
  toString (roundTo 2 q)

/-- The narrative/recommendation/confidence/catalysts quadruple built by
the branch cascade at the top of
`ClaudeAnalysisService.enhancedLocalAnalysis` (the four mutable locals of
the source). -/
structure LocalVerdict where
  analysisText : String
  recommendation : String
  confidence : ℚ
  catalysts : List String
  deriving Repr, DecidableEq

/-- The branch cascade of `enhancedLocalAnalysis`: gold (symbol XAUUSD or
a query mentioning "oro"), then USD crosses, then equity indices
(symbol containing "500", "NAS" or "GER"), else the untouched initial
values `("", "", 5, [])`. -/
def localVerdict (request : AnalysisRequest) : LocalVerdict :=
  let price := request.marketData.price
  let changePercent := request.marketData.changePercent
  let queryLower := strToLower request.query
  let isPositive := changePercent > 0
  let (analysis, recommendation, confidence, catalysts) :
      String × String × ℚ × List String :=
    if request.symbol = "XAUUSD" || strIncludes queryLower "oro" then
      let analysis := "El oro cotiza en $" ++ fmt2 price ++ " con " ++
        (if isPositive then "ganancia" else "pérdida") ++ " del " ++
        fmt2 |changePercent| ++ "%. "
      let (analysis, confidence, catalysts) :=
        if |changePercent| > 0.5 then
          (analysis ++ "El movimiento significativo del " ++ fmt2 |changePercent| ++
            "% indica actividad institucional fuerte. ",
           (7 : ℚ), ["Política Fed", "Tensiones geopolíticas", "Inflación USD"])
        else (analysis, 5, [])
      if changePercent > 0.3 then
        (analysis ++ "La fortaleza del oro sugiere búsqueda de refugio seguro o debilidad del USD.",
         "BUY - Safe haven demand", confidence, catalysts)
      else if changePercent < -0.3 then
        (analysis ++ "La debilidad del oro indica apetito por riesgo o fortaleza del USD.",
         "SELL - Risk-on sentiment", confidence, catalysts)
      else (analysis, "HOLD - Consolidación", confidence, catalysts)
    else if strIncludes request.symbol "USD" then
      let analysis := request.symbol ++ " cotiza en " ++ fmt2 price ++ " (" ++
        (if isPositive then "+" else "") ++ fmt2 changePercent ++ "%). "
      if |changePercent| > 0.2 then
        let analysis := analysis ++
          "Movimiento significativo sugiere flujos de capital institucionales o noticias fundamentales. "
        let catalysts := ["Datos económicos USA", "Política monetaria", "Flujos institucionales"]
        if changePercent > 0.2 then
          (analysis ++ "Fortaleza del USD o debilidad de la contraparte.",
           if strStartsWith request.symbol "USD" then "BUY - USD strength"
           else "SELL - Counter weakness", (6 : ℚ), catalysts)
        else
          (analysis ++ "Debilidad del USD o fortaleza de la contraparte.",
           if strStartsWith request.symbol "USD" then "SELL - USD weakness"
           else "BUY - Counter strength", (6 : ℚ), catalysts)
      else
        (analysis ++ "Rango de consolidación típico para esta sesión.",
         "HOLD - Range bound", 5,
         ["Esperando datos económicos", "Consolidación técnica"])
    else if strIncludes request.symbol "500" || strIncludes request.symbol "NAS"
        || strIncludes request.symbol "GER" then
      let analysis := request.symbol ++ " en " ++ fmt2 price ++ " puntos (" ++
        (if isPositive then "+" else "") ++ fmt2 changePercent ++ "%). "
      if changePercent > 0.3 then
        (analysis ++ "Rally de índices indica sentimiento risk-on en mercados.",
         "BUY - Risk appetite", 7, ["Earnings positivos", "Optimismo económico", "Liquidez"])
      else if changePercent < -0.3 then
        (analysis ++ "Corrección de índices refleja toma de ganancias o preocupaciones.",
         "WAIT - Risk-off", 6, ["Toma de ganancias", "Preocupaciones macro", "Rotación sectorial"])
      else
        (analysis ++ "Consolidación en índices, esperando catalizador direccional.",
         "HOLD - Neutral", 5, ["Earnings season", "Datos macro", "Política Fed"])
    else ("", "", 5, [])
  ⟨analysis, recommendation, confidence, catalysts⟩

/-- `ClaudeAnalysisService.enhancedLocalAnalysis(request)`: the
deterministic rule-based fallback analyzer.  The branch cascade
(`localVerdict`) supplies narrative, recommendation, confidence and
catalysts; key levels and risk levels are then derived arithmetically from
the current price (2 decimal places for JPY symbols, else 4). -/
def enhancedLocalAnalysis (request : AnalysisRequest) : AnalysisResponse :=
  let price := request.marketData.price
  let changePercent := request.marketData.changePercent
  let verdict := localVerdict request
  let recommendation := verdict.recommendation
  let volatility := |changePercent| / 100
  let digits : ℕ := if strIncludes request.symbol "JPY" then 2 else 4
  let supportLevel := roundTo digits (price * (1 - 0.005 - volatility))
  let resistanceLevel := roundTo digits (price * (1 + 0.005 + volatility))
  let entryLevel := roundTo digits price
  let multiplier : ℚ := if strIncludes recommendation "BUY" then 1 else -1
  let stopLoss := roundTo digits (price * (1 - multiplier * 0.008))
  let takeProfit := roundTo digits (price * (1 + multiplier * 0.02))
  { analysis := verdict.analysisText
    recommendation := recommendation
    confidence := verdict.confidence
    keyLevels := ⟨supportLevel, resistanceLevel, entryLevel⟩
    riskManagement := ⟨stopLoss, takeProfit, "1:2.5"⟩
    technicalView := "Precio: " ++ toString price ++ " | Cambio: " ++
      fmt2 changePercent ++ "% | Volumen: " ++
      (if request.marketData.volume = 0 then "N/A" else toString request.marketData.volume)
    catalysts := verdict.catalysts
    timeframe := if |changePercent| > 0.5 then "Corto plazo (1-2 días)"
      else "Mediano plazo (1-2 semanas)"
    source := "enhanced-local-analysis" }

/-- `ClaudeAnalysisService.analyzeMarket(request)`: when no API key is
configured (`hasKey = false`, i.e. `fallbackEnabled`), or when the remote
call/JSON parse fails (`remote = .error _`, covering network errors and
`Invalid JSON response from Claude`), the local heuristic analysis is
returned; a successful remote parse is returned stamped
`source = "claude-api"` (the spread in `callClaudeAPI`). -/
def claudeAnalyzeMarket (hasKey : Bool) (remote : Except String AnalysisResponse)
    (request : AnalysisRequest) : AnalysisResponse :=
  if !hasKey then enhancedLocalAnalysis request
  else
    match remote with
    | .ok parsed => { parsed with source := "claude-api" }
    | .error _ => enhancedLocalAnalysis request

/-- `type AIProvider` from multiAIService.ts. -/
inductive AIProvider where
  | claude
  | deepseek
  | local
  deriving Repr, DecidableEq

/-- The string name under which each provider appears in provider-order
switches and in the returned `provider` field. -/
def providerName : AIProvider → String
  | .claude => "claude"
  | .deepseek => "deepseek"
  | .local => "local"

/-- `MultiAIAnalysisService.providerPriority` (the constructor default). -/
def providerPriority : List AIProvider :=
  [.claude, .deepseek, .local]

/-- `MultiAIAnalysisService.getProviderOrder(preferredProvider)`. -/
def getProviderOrder (preferredProvider : String) : List AIProvider :=
  if preferredProvider = "claude" then [.claude, .deepseek, .local]
  else if preferredProvider = "deepseek" then [.deepseek, .claude, .local]
  else providerPriority

/-- The `comparison` record built by
`MultiAIAnalysisService.compareAnalyses` (the redundant `details` payload
is elided). -/
structure Comparison where
  agreement : ℕ
  recommendationMatch : Bool
  confidenceDiff : ℚ
  summary : String
  deriving Repr, DecidableEq

/-- `interface MultiAIAnalysis` from multiAIService.ts (`processingTime`,
a wall-clock measurement, is elided). -/
structure MultiAIAnalysis where
  primary : AnalysisResponse
  secondary : Option AnalysisResponse
  comparison : Option Comparison
  provider : String
  fallbackUsed : Bool
  deriving Repr, DecidableEq

/-- The `recommendationMatch` predicate of `compareAnalyses`: the two
lowercased recommendations both contain "buy", both contain "sell", or
both contain "hold". -/
def recommendationMatchOf (claude deepseek : AnalysisResponse) : Bool :=
  let claudeRec := strToLower claude.recommendation
  let deepseekRec := strToLower deepseek.recommendation
  (strIncludes claudeRec "buy" && strIncludes deepseekRec "buy")
    || (strIncludes claudeRec "sell" && strIncludes deepseekRec "sell")
    || (strIncludes claudeRec "hold" && strIncludes deepseekRec "hold")

/-- `claude.confidence || 5`: a missing or zero (JavaScript-falsy)
confidence defaults to 5. -/
def confidenceOrDefault (a : AnalysisResponse) : ℚ :=
  if a.confidence = 0 then 5 else a.confidence

/-- The `confidenceDiff` of `compareAnalyses`. -/
def confidenceDiffOf (claude deepseek : AnalysisResponse) : ℚ :=
  |confidenceOrDefault claude - confidenceOrDefault deepseek|

/-- The entry-level proximity test of `compareAnalyses`:
`Math.abs(parseFloat(claude.keyLevels?.entry || '0') - parseFloat(...)) < 0.01`
(a missing entry parses to 0, which `KeyLevels.entry` already models). -/
def entryCloseOf (claude deepseek : AnalysisResponse) : Bool :=
  |claude.keyLevels.entry - deepseek.keyLevels.entry| < 1 / 100

/-- `MultiAIAnalysisService.compareAnalyses(claude, deepseek)`: the
agreement score accumulates +50 for matching recommendations, +25 for a
confidence difference of at most 2, a further +15 for at most 1, and +10
for entry levels closer than 0.01; the summary is bucketed at 80/60/40.
(The surrounding try/catch never fires: every operation here is total.) -/
def compareAnalyses (claude deepseek : AnalysisResponse) : Comparison :=
  let recommendationMatch := recommendationMatchOf claude deepseek
  let confidenceDiff := confidenceDiffOf claude deepseek
  let agreement : ℕ :=
    (if recommendationMatch then 50 else 0)
      + (if confidenceDiff ≤ 2 then 25 else 0)
      + (if confidenceDiff ≤ 1 then 15 else 0)
      + (if entryCloseOf claude deepseek then 10 else 0)
  let summary :=
    if agreement ≥ 80 then "Alto consenso entre modelos de IA - Análisis muy confiable"
    else if agreement ≥ 60 then "Consenso moderado - Análisis confiable con algunas diferencias menores"
    else if agreement ≥ 40 then "Consenso parcial - Revisar análisis cuidadosamente"
    else "Bajo consenso - Modelos difieren significativamente, se recomienda análisis adicional"
  { agreement := agreement
    recommendationMatch := recommendationMatch
    confidenceDiff := confidenceDiff
    summary := summary }

/-- The loop body of `MultiAIAnalysisService.runSingleAnalysis`: walk the
provider list with its entry index, remembering the last error; the first
success returns, with `fallbackUsed` set iff the index is positive; an
exhausted list throws the wrapping error naming the last failure. -/
def runSingleAnalysisAux (backends : AIProvider → Except String AnalysisResponse) :
    List AIProvider → ℕ → Option String → Except String MultiAIAnalysis
  | [], _, lastError =>
    .error ("All AI providers failed. Last error: " ++ lastError.getD "undefined")
  | p :: rest, index, _lastError =>
    match backends p with
    | .ok result =>
      .ok { primary := result
            secondary := none
            comparison := none
            provider := providerName p
            fallbackUsed := decide (index > 0) }
    | .error e => runSingleAnalysisAux backends rest (index + 1) (some e)

/-- `MultiAIAnalysisService.runSingleAnalysis(request, preferredProvider)`,
with each backend's outcome supplied by the `backends` argument. -/
def runSingleAnalysis (backends : AIProvider → Except String AnalysisResponse)
    (preferredProvider : String) : Except String MultiAIAnalysis :=
  runSingleAnalysisAux backends (getProviderOrder preferredProvider) 0 none

/-- `MultiAIAnalysisService.runComparativeAnalysis`: Claude's and
DeepSeek's outcomes are joined with all-settled semantics; a fulfilled
non-error Claude result is primary (compared against DeepSeek when that
also succeeded); else a fulfilled DeepSeek result is primary; else the
local backend's (always-successful) result is primary.  `provider` is
"claude+deepseek" when a comparison exists, else `primary.source` (or
"unknown" when that is empty); `fallbackUsed` iff no comparison. -/
def runComparativeAnalysis (claudeRes deepSeekRes : Except String AnalysisResponse)
    (localRes : AnalysisResponse) : MultiAIAnalysis :=
  match claudeRes with
  | .ok c =>
    match deepSeekRes with
    | .ok d =>
      { primary := c
        secondary := some d
        comparison := some (compareAnalyses c d)
        provider := "claude+deepseek"
        fallbackUsed := false }
    | .error _ =>
      { primary := c
        secondary := none
        comparison := none
        provider := if c.source = "" then "unknown" else c.source
        fallbackUsed := true }
  | .error _ =>
    match deepSeekRes with
    | .ok d =>
      { primary := d
        secondary := none
        comparison := none
        provider := if d.source = "" then "unknown" else d.source
        fallbackUsed := true }
    | .error _ =>
      { primary := localRes
        secondary := none
        comparison := none
        provider := if localRes.source = "" then "unknown" else localRes.source
        fallbackUsed := true }

/-- `MultiAIAnalysisService.callProvider`: `claude` and `local` both
dispatch to `claudeService.analyzeMarket` (which never rejects, hence
`.ok`); `deepseek`'s outcome is the supplied remote result. -/
def callProvider (hasKey : Bool) (claudeRemote deepSeekRes : Except String AnalysisResponse)
    (request : AnalysisRequest) : AIProvider → Except String AnalysisResponse
  | .claude => .ok (claudeAnalyzeMarket hasKey claudeRemote request)
  | .deepseek => deepSeekRes
  | .local => .ok (claudeAnalyzeMarket hasKey claudeRemote request)

/-- `MultiAIAnalysisService.analyzeMarket(request)`: comparative mode when
`preferredProvider = "both"` or `compareResults`, else the single-mode
failover chain. -/
def multiAIAnalyzeMarket (hasKey : Bool)
    (claudeRemote deepSeekRes : Except String AnalysisResponse)
    (request : AnalysisRequest) (preferredProvider : String)
    (compareResults : Bool) : Except String MultiAIAnalysis :=
  if preferredProvider = "both" || compareResults then
    .ok (runComparativeAnalysis
      (callProvider hasKey claudeRemote deepSeekRes request .claude)
      (callProvider hasKey claudeRemote deepSeekRes request .deepseek)
      (claudeAnalyzeMarket hasKey claudeRemote request))
  else
    runSingleAnalysis (callProvider hasKey claudeRemote deepSeekRes request)
      preferredProvider

/-- The observable outcome of one `analysisController.analyzeMarket`
request: the HTTP status sent, and whether the quote-provider chain
resp. the analysis chain were reached before responding. -/
structure ControllerOutcome where
  status : ℕ
  quoteProviderInvoked : Bool
  analysisInvoked : Bool
  deriving Repr, DecidableEq

/-- `analysisController.analyzeMarket(req, res)`: a missing (falsy) query
or symbol is rejected with 400 before anything else runs; otherwise the
quote chain is invoked (404 only if it returned `null`), the indicator
computation runs in its own try/catch (it cannot affect the outcome and is
elided), and the multi-AI analysis produces 200 on success and 500 on a
thrown error. -/
def analyzeMarketController (query symbol : String)
    (finnhub twelve alpha : Except Unit (Option MarketData)) (r : ℚ) (now : ℤ)
    (hasKey : Bool) (claudeRemote deepSeekRes : Except String AnalysisResponse)
    (provider : String) (compare : Bool) : ControllerOutcome :=
  if query = "" ∨ symbol = "" then ⟨400, false, false⟩
  else
    match getCurrentPrice finnhub twelve alpha r now symbol with
    | none => ⟨404, true, false⟩
    | some marketData =>
      let request : AnalysisRequest := ⟨query, symbol, marketData⟩
      match multiAIAnalyzeMarket hasKey claudeRemote deepSeekRes request
          (if provider = "" then "auto" else provider)
          (compare || provider = "both") with
      | .ok _ => ⟨200, true, true⟩
      | .error _ => ⟨500, true, true⟩

/-! ## Helper lemmas -/

theorem roundTo_mono {k : ℕ} {x y : ℚ} (h : x ≤ y) : roundTo k x ≤ roundTo k y := by
  have hfl : (⌊x * 10 ^ k + 1 / 2⌋ : ℤ) ≤ ⌊y * 10 ^ k + 1 / 2⌋ := by
    apply Int.floor_le_floor
    have : x * 10 ^ k ≤ y * 10 ^ k := by
      apply mul_le_mul_of_nonneg_right h
      positivity
    linarith
  unfold roundTo
  rw [div_le_div_iff_of_pos_right (by positivity)]
  exact_mod_cast hfl

theorem roundTo_nonneg {k : ℕ} {x : ℚ} (h : 0 ≤ x) : 0 ≤ roundTo k x := by
  have h10 : (0 : ℚ) < 10 ^ k := by positivity
  unfold roundTo
  apply div_nonneg _ (le_of_lt h10)
  have : (0 : ℤ) ≤ ⌊x * 10 ^ k + 1 / 2⌋ := by
    apply Int.floor_nonneg.mpr
    have := mul_nonneg h (le_of_lt h10)
    linarith
  exact_mod_cast this

theorem roundTo_pos {k : ℕ} {x : ℚ} (h : 1 ≤ 2 * 10 ^ k * x) : 0 < roundTo k x := by
  have h10 : (0 : ℚ) < 10 ^ k := by positivity
  have h1 : (1 : ℚ) ≤ x * 10 ^ k + 1 / 2 := by
    have hcomm : 2 * 10 ^ k * x = 2 * (x * 10 ^ k) := by ring
    linarith
  have hfl : (1 : ℤ) ≤ ⌊x * 10 ^ k + 1 / 2⌋ := Int.le_floor.mpr (by exact_mod_cast h1)
  unfold roundTo
  apply div_pos _ h10
  exact_mod_cast lt_of_lt_of_le Int.zero_lt_one hfl

theorem roundTo_err {k : ℕ} (x : ℚ) : |roundTo k x - x| ≤ 1 / (2 * 10 ^ k) := by
  have h10 : (0 : ℚ) < 10 ^ k := by positivity
  have hle : ((⌊x * 10 ^ k + 1 / 2⌋ : ℤ) : ℚ) ≤ x * 10 ^ k + 1 / 2 := Int.floor_le _
  have hgt : x * 10 ^ k + 1 / 2 < ((⌊x * 10 ^ k + 1 / 2⌋ : ℤ) : ℚ) + 1 :=
    Int.lt_floor_add_one _
  have key : roundTo k x - x = (((⌊x * 10 ^ k + 1 / 2⌋ : ℤ) : ℚ) - x * 10 ^ k) / 10 ^ k := by
    unfold roundTo
    field_simp
    ring
  rw [key, abs_div, abs_of_pos h10,
    show (1 : ℚ) / (2 * 10 ^ k) = (1 / 2) / 10 ^ k by ring]
  gcongr
  rw [abs_le]
  constructor <;> linarith

theorem validQuoteOf_price_pos {e : Except Unit (Option MarketData)} {d : MarketData}
    (h : validQuoteOf e = some d) : 0 < d.price := by
  match e with
  | .error _ => simp [validQuoteOf] at h
  | .ok none => simp [validQuoteOf] at h
  | .ok (some d') =>
    simp only [validQuoteOf] at h
    split at h
    · rename_i hv
      cases h
      simpa [isValidPrice] using hv
    · cases h

theorem fallback_base_one_le (s : String) :
    1 ≤ ((fallbackPrices s).getD eurusdFallback).price := by
  unfold fallbackPrices eurusdFallback
  split_ifs <;> norm_num

theorem getEnhancedFallback_price_pos (s : String) (r : ℚ) (now : ℤ)
    (h0 : 0 ≤ r) (_h1 : r < 1) : 0 < (getEnhancedFallback s r now).price := by
  have hbase := fallback_base_one_le s
  unfold getEnhancedFallback
  apply roundTo_pos
  have : (10 : ℚ) ^ 5 = 100000 := by norm_num
  rw [this]
  linarith

theorem getCurrentPrice_always_some (finnhub twelve alpha : Except Unit (Option MarketData))
    (r : ℚ) (now : ℤ) (symbol : String) :
    ∃ md, getCurrentPrice finnhub twelve alpha r now symbol = some md := by
  unfold getCurrentPrice
  cases validQuoteOf finnhub with
  | some d => exact ⟨d, rfl⟩
  | none =>
    cases validQuoteOf twelve with
    | some d => exact ⟨d, rfl⟩
    | none =>
      cases validQuoteOf alpha with
      | some d => exact ⟨d, rfl⟩
      | none => exact ⟨_, rfl⟩

theorem runSingleAnalysisAux_first_ok
    (backends : AIProvider → Except String AnalysisResponse) :
    ∀ (pre : List AIProvider) (p : AIProvider) (post : List AIProvider)
      (index : ℕ) (le : Option String) (res : AnalysisResponse),
      (∀ q ∈ pre, ∃ e, backends q = .error e) →
      backends p = .ok res →
      runSingleAnalysisAux backends (pre ++ p :: post) index le =
        .ok { primary := res
              secondary := none
              comparison := none
              provider := providerName p
              fallbackUsed := decide (0 < index + pre.length) } := by
  intro pre
  induction pre with
  | nil =>
    intro p post index le res _ hp
    simp [runSingleAnalysisAux, hp]
  | cons q pre ih =>
    intro p post index le res hpre hp
    obtain ⟨e, he⟩ := hpre q (List.mem_cons_self q pre)
    have step := ih p post (index + 1) (some e) res
      (fun q' hq' => hpre q' (List.mem_cons_of_mem q hq')) hp
    simp only [List.cons_append, runSingleAnalysisAux, he, List.append_eq]
    rw [step, show index + 1 + pre.length = index + (q :: pre).length by
      simp [List.length_cons]; omega]

theorem runSingleAnalysisAux_all_fail
    (backends : AIProvider → Except String AnalysisResponse)
    (errs : AIProvider → String) :
    ∀ (front : List AIProvider) (z : AIProvider) (index : ℕ) (le : Option String),
      (∀ q ∈ front ++ [z], backends q = .error (errs q)) →
      runSingleAnalysisAux backends (front ++ [z]) index le =
        .error ("All AI providers failed. Last error: " ++ errs z) := by
  intro front
  induction front with
  | nil =>
    intro z index le hall
    have hz := hall z (by simp)
    simp [runSingleAnalysisAux, hz]
  | cons q front ih =>
    intro z index le hall
    have hq := hall q (by simp)
    simp only [List.cons_append, runSingleAnalysisAux, hq]
    exact ih z (index + 1) (some (errs q)) (fun q' hq' => hall q' (by simp [hq']))

theorem runSingleAnalysisAux_mem_ok
    (backends : AIProvider → Except String AnalysisResponse)
    (p : AIProvider) (res : AnalysisResponse) (hp : backends p = .ok res) :
    ∀ (l : List AIProvider) (index : ℕ) (le : Option String), p ∈ l →
      ∃ a, runSingleAnalysisAux backends l index le = .ok a := by
  intro l
  induction l with
  | nil => intro index le h; cases h
  | cons q rest ih =>
    intro index le hmem
    cases hbq : backends q with
    | ok rq =>
      refine ⟨{ primary := rq, secondary := none, comparison := none,
                provider := providerName q, fallbackUsed := decide (index > 0) }, ?_⟩
      simp [runSingleAnalysisAux, hbq]
    | error e =>
      simp only [runSingleAnalysisAux, hbq]
      apply ih
      rcases List.mem_cons.mp hmem with h | h
      · subst h
        rw [hp] at hbq
        cases hbq
      · exact h

theorem claude_mem_getProviderOrder (pref : String) :
    AIProvider.claude ∈ getProviderOrder pref := by
  unfold getProviderOrder providerPriority
  split_ifs <;> simp

theorem multiAIAnalyzeMarket_always_ok (hasKey : Bool)
    (claudeRemote deepSeekRes : Except String AnalysisResponse)
    (request : AnalysisRequest) (preferredProvider : String) (compareResults : Bool) :
    ∃ a, multiAIAnalyzeMarket hasKey claudeRemote deepSeekRes request
      preferredProvider compareResults = .ok a := by
  unfold multiAIAnalyzeMarket
  split
  · exact ⟨_, rfl⟩
  · exact runSingleAnalysisAux_mem_ok _ AIProvider.claude _ rfl _ 0 none
      (claude_mem_getProviderOrder preferredProvider)

/-! ## Claim theorems -/

/-- C1: For every symbol in the fixed instrument set, `getCurrentPrice`
returns a quote whose price is strictly positive (and, being a rational,
finite and not NaN) for every combination of provider outcomes — in
particular even when every remote provider throws, returns null or
returns invalid data, since the enhanced synthetic fallback then supplies
the result; no error is ever propagated to the caller (every branch
returns `some`). -/
theorem getCurrentPrice_fallback_guarantee
    (finnhub twelve alpha : Except Unit (Option MarketData)) (r : ℚ) (now : ℤ)
    (s : String) (_hs : s ∈ instrumentSymbols) (h0 : 0 ≤ r) (h1 : r < 1) :
    ∃ md, getCurrentPrice finnhub twelve alpha r now s = some md ∧ 0 < md.price := by
  unfold getCurrentPrice
  cases hf : validQuoteOf finnhub with
  | some d => exact ⟨d, rfl, validQuoteOf_price_pos hf⟩
  | none =>
    cases ht : validQuoteOf twelve with
    | some d => exact ⟨d, rfl, validQuoteOf_price_pos ht⟩
    | none =>
      cases ha : validQuoteOf alpha with
      | some d => exact ⟨d, rfl, validQuoteOf_price_pos ha⟩
      | none => exact ⟨_, rfl, getEnhancedFallback_price_pos s r now h0 h1⟩

/-- Witness for C1: EURUSD with all three providers throwing. -/
theorem getCurrentPrice_fallback_guarantee_witness :
    ∃ md, getCurrentPrice (.error ()) (.error ()) (.error ()) 0 0 "EURUSD" = some md
      ∧ 0 < md.price :=
  getCurrentPrice_fallback_guarantee (.error ()) (.error ()) (.error ()) 0 0 "EURUSD"
    (by simp [instrumentSymbols]) (by norm_num) (by norm_num)

/-- C2 counterexample: "FOOBAR" is not in the fixed instrument set, yet
the analysis request is not rejected with a caller-input error: the quote
provider chain is invoked, the synthetic fallback synthesizes a quote,
and the analysis completes with HTTP 200. -/
theorem analyzeMarketController_unknown_symbol_counterexample :
    "FOOBAR" ∉ instrumentSymbols ∧
    analyzeMarketController "q" "FOOBAR" (.error ()) (.error ()) (.error ()) 0 0
        false (.error "remote failed") (.error "remote failed") "" false =
      { status := 200, quoteProviderInvoked := true, analysisInvoked := true } := by
  constructor
  · simp [instrumentSymbols]
  · decide

/-- C2 (amended): a request with a missing (falsy) query or symbol is
rejected with the caller-input error 400 before any quote provider or
analysis backend is invoked; a request naming any non-empty symbol —
recognized or not — is never rejected: the quote provider chain is
invoked, the synthetic fallback guarantees market data, and the analysis
completes with HTTP 200 (the controller's unknown-symbol 404 branch is
unreachable). -/
theorem analyzeMarketController_rejection_spec
    (query symbol : String) (finnhub twelve alpha : Except Unit (Option MarketData))
    (r : ℚ) (now : ℤ) (hasKey : Bool)
    (claudeRemote deepSeekRes : Except String AnalysisResponse)
    (provider : String) (compare : Bool) :
    ((query = "" ∨ symbol = "") →
      analyzeMarketController query symbol finnhub twelve alpha r now hasKey
          claudeRemote deepSeekRes provider compare =
        { status := 400, quoteProviderInvoked := false, analysisInvoked := false }) ∧
    (query ≠ "" → symbol ≠ "" →
      analyzeMarketController query symbol finnhub twelve alpha r now hasKey
          claudeRemote deepSeekRes provider compare =
        { status := 200, quoteProviderInvoked := true, analysisInvoked := true }) := by
  constructor
  · intro h
    unfold analyzeMarketController
    rw [if_pos h]
  · intro hq hs
    unfold analyzeMarketController
    rw [if_neg (by tauto)]
    obtain ⟨md, hmd⟩ := getCurrentPrice_always_some finnhub twelve alpha r now symbol
    obtain ⟨a, ha⟩ := multiAIAnalyzeMarket_always_ok hasKey claudeRemote deepSeekRes
      ⟨query, symbol, md⟩ (if provider = "" then "auto" else provider)
      (compare || provider = "both")
    simp [hmd, ha]

/-- Witness for C2 (amended): a missing query is rejected with 400;
a well-formed request completes with 200 even with every remote failing. -/
theorem analyzeMarketController_rejection_spec_witness :
    analyzeMarketController "" "EURUSD" (.error ()) (.error ()) (.error ()) 0 0 false
        (.error "x") (.error "x") "" false =
      { status := 400, quoteProviderInvoked := false, analysisInvoked := false } ∧
    analyzeMarketController "hola" "EURUSD" (.error ()) (.error ()) (.error ()) 0 0 false
        (.error "x") (.error "x") "" false =
      { status := 200, quoteProviderInvoked := true, analysisInvoked := true } :=
  ⟨(analyzeMarketController_rejection_spec "" "EURUSD" (.error ()) (.error ()) (.error ())
      0 0 false (.error "x") (.error "x") "" false).1 (Or.inl rfl),
   (analyzeMarketController_rejection_spec "hola" "EURUSD" (.error ()) (.error ()) (.error ())
      0 0 false (.error "x") (.error "x") "" false).2 (by decide) (by decide)⟩

/-- C3: in single mode, (i) for a named remote backend the provider order
is `[preferred, then the remaining backends in default priority, then
local]` — and for `auto` it is the default priority, which ends in local;
(ii) when every backend before position `pre.length` fails and the backend
there succeeds, the chain stops there: that result is primary and
`fallbackUsed` is true iff that position is not 0; (iii) when every
backend in the list fails, the error propagated to the caller carries the
last backend's error. -/
theorem runSingleAnalysis_chain_spec :
    (∀ p : AIProvider, p ≠ AIProvider.local →
      getProviderOrder (providerName p) =
        p :: ((providerPriority.erase p).erase AIProvider.local) ++ [AIProvider.local]) ∧
    getProviderOrder "auto" = providerPriority ∧
    (∀ (backends : AIProvider → Except String AnalysisResponse) (pref : String)
        (pre post : List AIProvider) (p : AIProvider) (res : AnalysisResponse),
      getProviderOrder pref = pre ++ p :: post →
      (∀ q ∈ pre, ∃ e, backends q = .error e) →
      backends p = .ok res →
      runSingleAnalysis backends pref =
        .ok { primary := res, secondary := none, comparison := none,
              provider := providerName p, fallbackUsed := decide (0 < pre.length) }) ∧
    (∀ (backends : AIProvider → Except String AnalysisResponse) (pref : String)
        (errs : AIProvider → String) (front : List AIProvider) (z : AIProvider),
      getProviderOrder pref = front ++ [z] →
      (∀ q ∈ getProviderOrder pref, backends q = .error (errs q)) →
      runSingleAnalysis backends pref =
        .error ("All AI providers failed. Last error: " ++ errs z)) := by
  refine ⟨?_, ?_, ?_, ?_⟩
  · intro p hp
    cases p with
    | claude => decide
    | deepseek => decide
    | «local» => exact absurd rfl hp
  · decide
  · intro backends pref pre post p res hdecomp hpre hp
    unfold runSingleAnalysis
    rw [hdecomp]
    have h := runSingleAnalysisAux_first_ok backends pre p post 0 none res hpre hp
    simpa using h
  · intro backends pref errs front z hdecomp hall
    unfold runSingleAnalysis
    rw [hdecomp] at hall ⊢
    exact runSingleAnalysisAux_all_fail backends errs front z 0 none hall

/-- A concrete analysis result used to instantiate witnesses. -/
def sampleResponse : AnalysisResponse :=
  { analysis := "ok"
    recommendation := "BUY - test"
    confidence := 7
    keyLevels := ⟨1, 2, 1.5⟩
    riskManagement := ⟨1, 2, "1:2.5"⟩
    technicalView := "tv"
    catalysts := []
    timeframe := "1d"
    source := "claude-api" }

/-- Witness for C3: a preferred DeepSeek backend that succeeds at position
0 supplies the primary result with `fallbackUsed = false`. -/
theorem runSingleAnalysis_chain_spec_witness :
    runSingleAnalysis
        (fun p => match p with
          | AIProvider.deepseek => Except.ok sampleResponse
          | _ => Except.error "fail")
        "deepseek" =
      Except.ok { primary := sampleResponse, secondary := none, comparison := none,
                  provider := "deepseek", fallbackUsed := false } := by
  have h := runSingleAnalysis_chain_spec.2.2.1
    (fun p => match p with
      | AIProvider.deepseek => Except.ok sampleResponse
      | _ => Except.error "fail")
    "deepseek" [] [AIProvider.claude, AIProvider.local] AIProvider.deepseek sampleResponse
    (by decide) (by simp) rfl
  simpa using h

theorem compareAnalyses_agreement_eq (a b : AnalysisResponse) :
    (compareAnalyses a b).agreement =
      (if recommendationMatchOf a b then 50 else 0)
        + (if confidenceDiffOf a b ≤ 2 then 25 else 0)
        + (if confidenceDiffOf a b ≤ 1 then 15 else 0)
        + (if entryCloseOf a b then 10 else 0) := rfl

/-- The local analyzer's own verdict for an equity index in a risk-off
move: recommendation "WAIT - Risk-off" with confidence 6. -/
def waitVerdictResponse : AnalysisResponse :=
  enhancedLocalAnalysis
    ⟨"idx", "NAS100", ⟨"NAS100", 16845.30, -45.20, -0.4, 0, 16900, 16800, 0⟩⟩

unseal Rat.add Rat.sub Rat.mul Rat.inv Rat.ofScientific in
/-- C4 counterexample: comparing the local analyzer's "WAIT - Risk-off"
verdict against itself gives identical recommendations and confidence
delta 0, yet the agreement score is 50 < 90, because "WAIT" contains none
of the BUY/SELL/HOLD keywords recognised by the substring match. -/
theorem compareAnalyses_identical_counterexample :
    waitVerdictResponse.recommendation = "WAIT - Risk-off" ∧
    confidenceDiffOf waitVerdictResponse waitVerdictResponse = 0 ∧
    (compareAnalyses waitVerdictResponse waitVerdictResponse).agreement = 50 ∧
    (compareAnalyses waitVerdictResponse waitVerdictResponse).agreement < 90 := by
  decide

/-- C4 (amended): the agreement score is exactly the sum of the four
stated contributions (+50 matching recommendations, +25 for confidence
difference at most 2, a cumulative +15 for at most 1, +10 for entry levels
within 0.01); the score is monotone non-decreasing as recommendation and
confidence converge; and two results with identical recommendations that
mention BUY, SELL or HOLD (case-insensitively) and confidence delta 0
score at least 90.  (Identical recommendations mentioning none of the
three keywords — e.g. the local analyzer's "WAIT - Risk-off" — do not
receive the +50 and can score as low as 40; see the counterexample.) -/
theorem compareAnalyses_agreement_spec :
    (∀ a b : AnalysisResponse,
      (compareAnalyses a b).agreement =
        (if recommendationMatchOf a b then 50 else 0)
          + (if confidenceDiffOf a b ≤ 2 then 25 else 0)
          + (if confidenceDiffOf a b ≤ 1 then 15 else 0)
          + (if entryCloseOf a b then 10 else 0)) ∧
    (∀ a b a' b' : AnalysisResponse,
      (recommendationMatchOf a b = true → recommendationMatchOf a' b' = true) →
      confidenceDiffOf a' b' ≤ confidenceDiffOf a b →
      (entryCloseOf a b = true → entryCloseOf a' b' = true) →
      (compareAnalyses a b).agreement ≤ (compareAnalyses a' b').agreement) ∧
    (∀ a b : AnalysisResponse,
      a.recommendation = b.recommendation →
      (strIncludes (strToLower a.recommendation) "buy" = true ∨
        strIncludes (strToLower a.recommendation) "sell" = true ∨
        strIncludes (strToLower a.recommendation) "hold" = true) →
      confidenceDiffOf a b = 0 →
      90 ≤ (compareAnalyses a b).agreement) := by
  refine ⟨fun a b => rfl, ?_, ?_⟩
  · intro a b a' b' hrec hconf hentry
    rw [compareAnalyses_agreement_eq, compareAnalyses_agreement_eq]
    have h1 : (if recommendationMatchOf a b then 50 else 0)
        ≤ (if recommendationMatchOf a' b' then (50 : ℕ) else 0) := by
      cases hm : recommendationMatchOf a b
      · simp
      · simp [hrec hm]
    have h2 : (if confidenceDiffOf a b ≤ 2 then 25 else 0)
        ≤ (if confidenceDiffOf a' b' ≤ 2 then (25 : ℕ) else 0) := by
      split_ifs with hab hab'
      · exact le_refl _
      · exact absurd (le_trans hconf hab) hab'
      · exact Nat.zero_le _
      · exact le_refl _
    have h3 : (if confidenceDiffOf a b ≤ 1 then 15 else 0)
        ≤ (if confidenceDiffOf a' b' ≤ 1 then (15 : ℕ) else 0) := by
      split_ifs with hab hab'
      · exact le_refl _
      · exact absurd (le_trans hconf hab) hab'
      · exact Nat.zero_le _
      · exact le_refl _
    have h4 : (if entryCloseOf a b then 10 else 0)
        ≤ (if entryCloseOf a' b' then (10 : ℕ) else 0) := by
      cases he : entryCloseOf a b
      · simp
      · simp [hentry he]
    omega
  · intro a b hrec hkey hconf
    have hm : recommendationMatchOf a b = true := by
      unfold recommendationMatchOf
      rw [← hrec]
      rcases hkey with h | h | h <;> simp [h]
    rw [compareAnalyses_agreement_eq, hm, hconf, if_pos rfl,
      if_pos (by norm_num : (0 : ℚ) ≤ 2), if_pos (by norm_num : (0 : ℚ) ≤ 1)]
    split_ifs <;> norm_num

unseal Rat.add Rat.sub Rat.mul Rat.inv Rat.ofScientific in
/-- Witness for C4 (amended): a matching BUY pair with confidence delta 0
scores at least 90, and dominates the WAIT pair of the counterexample. -/
theorem compareAnalyses_agreement_spec_witness :
    90 ≤ (compareAnalyses sampleResponse sampleResponse).agreement ∧
    (compareAnalyses waitVerdictResponse waitVerdictResponse).agreement ≤
      (compareAnalyses sampleResponse sampleResponse).agreement :=
  ⟨compareAnalyses_agreement_spec.2.2 sampleResponse sampleResponse rfl
      (Or.inl (by decide)) (by decide),
   compareAnalyses_agreement_spec.2.1 waitVerdictResponse waitVerdictResponse
      sampleResponse sampleResponse (by decide) (by decide) (by decide)⟩

unseal Rat.add Rat.sub Rat.mul Rat.inv Rat.ofScientific in
/-- C5 counterexample: on `[0, 351/560000]` the returned (rounded) MACD
fields violate both exact identities: `signal ≠ macd * 0.9` and
`histogram ≠ macd - signal` (macd rounds up to 0.0001 while signal and
histogram round down to 0). -/
theorem calculateMACD_rounding_counterexample :
    (calculateMACD [0, 351 / 560000]).signal ≠
      (calculateMACD [0, 351 / 560000]).macd * (9 / 10) ∧
    (calculateMACD [0, 351 / 560000]).histogram ≠
      (calculateMACD [0, 351 / 560000]).macd - (calculateMACD [0, 351 / 560000]).signal := by
  decide

/-- C5 (amended): with `macd` the full-precision `EMA12 - EMA26`, the
identities hold exactly before rounding — the returned fields are
`roundTo 4` of `macd`, `macd * 0.9` and `macd - macd * 0.9` respectively —
and on the returned fields they hold up to rounding error:
`|signal - macd * 0.9| ≤ 19/200000` and
`|histogram - (macd - signal)| ≤ 3/20000`. -/
theorem calculateMACD_spec (prices : List ℚ) :
    (calculateMACD prices).macd =
      roundTo 4 (calculateEMA prices 12 - calculateEMA prices 26) ∧
    (calculateMACD prices).signal =
      roundTo 4 ((calculateEMA prices 12 - calculateEMA prices 26) * (9 / 10)) ∧
    (calculateMACD prices).histogram =
      roundTo 4 ((calculateEMA prices 12 - calculateEMA prices 26)
        - (calculateEMA prices 12 - calculateEMA prices 26) * (9 / 10)) ∧
    |(calculateMACD prices).signal - (calculateMACD prices).macd * (9 / 10)| ≤ 19 / 200000 ∧
    |(calculateMACD prices).histogram
        - ((calculateMACD prices).macd - (calculateMACD prices).signal)| ≤ 3 / 20000 := by
  have hc : (1 : ℚ) / (2 * 10 ^ 4) = 1 / 20000 := by norm_num
  have hmacd : (calculateMACD prices).macd =
      roundTo 4 (calculateEMA prices 12 - calculateEMA prices 26) := rfl
  have hsignal : (calculateMACD prices).signal =
      roundTo 4 ((calculateEMA prices 12 - calculateEMA prices 26) * (9 / 10)) := rfl
  have hhist : (calculateMACD prices).histogram =
      roundTo 4 ((calculateEMA prices 12 - calculateEMA prices 26)
        - (calculateEMA prices 12 - calculateEMA prices 26) * (9 / 10)) := rfl
  set m := calculateEMA prices 12 - calculateEMA prices 26 with hmdef
  have e1 := roundTo_err (k := 4) m
  have e2 := roundTo_err (k := 4) (m * (9 / 10))
  have e3 := roundTo_err (k := 4) (m - m * (9 / 10))
  rw [hc] at e1 e2 e3
  rw [abs_le] at e1 e2 e3
  refine ⟨hmacd, hsignal, hhist, ?_, ?_⟩
  · rw [hsignal, hmacd, abs_le]
    constructor <;> linarith
  · rw [hhist, hmacd, hsignal, abs_le]
    constructor <;> linarith

theorem rsiGains_nonneg (prices : List ℚ) (period : ℕ) : 0 ≤ rsiGains prices period := by
  unfold rsiGains
  apply List.sum_nonneg
  intro x hx
  simp only [List.mem_map] at hx
  obtain ⟨c, _, rfl⟩ := hx
  split_ifs with h
  · exact le_of_lt h
  · exact le_refl 0

theorem rsiLosses_nonneg (prices : List ℚ) (period : ℕ) : 0 ≤ rsiLosses prices period := by
  unfold rsiLosses
  apply List.sum_nonneg
  intro x hx
  simp only [List.mem_map] at hx
  obtain ⟨c, _, rfl⟩ := hx
  split_ifs with h
  · exact le_refl 0
  · linarith [not_lt.mp h]

theorem calculateRSI_eq (prices : List ℚ) (period : ℕ) :
    calculateRSI prices period =
      if prices.length < period + 1 then 50
      else if rsiLosses prices period / (period : ℚ) = 0 then 100
      else roundTo 2 (100 - 100 / (1 + (rsiGains prices period / (period : ℚ))
        / (rsiLosses prices period / (period : ℚ)))) := rfl

/-- C6: for every price list and every period ≥ 1, RSI lies in [0, 100];
it is exactly 50 when fewer than period+1 prices are supplied, and exactly
100 when (period+1 prices being available) the average loss over the first
`period` deltas is zero. -/
theorem calculateRSI_range_spec (prices : List ℚ) (period : ℕ) (_hp : 1 ≤ period) :
    (0 ≤ calculateRSI prices period ∧ calculateRSI prices period ≤ 100) ∧
    (prices.length < period + 1 → calculateRSI prices period = 50) ∧
    (period + 1 ≤ prices.length → rsiLosses prices period / (period : ℚ) = 0 →
      calculateRSI prices period = 100) := by
  refine ⟨?_, ?_, ?_⟩
  · rw [calculateRSI_eq]
    split_ifs with hlen hloss
    · norm_num
    · norm_num
    · have hGn : 0 ≤ rsiGains prices period := rsiGains_nonneg prices period
      have hLn : 0 ≤ rsiLosses prices period := rsiLosses_nonneg prices period
      have hperiod : (0 : ℚ) ≤ (period : ℚ) := by positivity
      have havgLn : 0 ≤ rsiLosses prices period / (period : ℚ) := div_nonneg hLn hperiod
      have havgL : 0 < rsiLosses prices period / (period : ℚ) :=
        lt_of_le_of_ne havgLn (Ne.symm hloss)
      set rs := rsiGains prices period / (period : ℚ)
        / (rsiLosses prices period / (period : ℚ)) with hrsdef
      have hrs : 0 ≤ rs := div_nonneg (div_nonneg hGn hperiod) (le_of_lt havgL)
      have hv0 : 0 ≤ 100 - 100 / (1 + rs) := by
        have : 100 / (1 + rs) ≤ 100 := div_le_self (by norm_num) (by linarith)
        linarith
      have hv1 : 100 - 100 / (1 + rs) < 100 := by
        have : 0 < 100 / (1 + rs) := by positivity
        linarith
      constructor
      · exact roundTo_nonneg hv0
      · unfold roundTo
        rw [div_le_iff₀ (by positivity)]
        have hfl : ⌊(100 - 100 / (1 + rs)) * 10 ^ 2 + 1 / 2⌋ < 10001 := by
          apply Int.floor_lt.mpr
          push_cast
          nlinarith
        have hcast : ((⌊(100 - 100 / (1 + rs)) * 10 ^ 2 + 1 / 2⌋ : ℤ) : ℚ) ≤ 10000 := by
          exact_mod_cast Int.lt_add_one_iff.mp hfl
        nlinarith
  · intro h
    rw [calculateRSI_eq, if_pos h]
  · intro hlen hzero
    rw [calculateRSI_eq, if_neg (Nat.not_lt.mpr hlen), if_pos hzero]

unseal Rat.add Rat.sub Rat.mul Rat.inv Rat.ofScientific in
/-- Witness for C6: the short-list default, the range bound, and the
zero-average-loss case. -/
theorem calculateRSI_range_spec_witness :
    calculateRSI [] 14 = 50 ∧ 0 ≤ calculateRSI [] 14 ∧ calculateRSI [1, 2] 1 = 100 :=
  ⟨(calculateRSI_range_spec [] 14 (by norm_num)).2.1 (by norm_num),
   ((calculateRSI_range_spec [] 14 (by norm_num)).1).1,
   (calculateRSI_range_spec [1, 2] 1 (by norm_num)).2.2 (by norm_num) (by decide)⟩

unseal Rat.add Rat.sub Rat.mul Rat.inv Rat.ofScientific in
/-- C7: the spec's RSI example list with period 14 produces a value
strictly between 60 and 75 (the computed value is 62.08). -/
theorem calculateRSI_example_spec :
    60 < calculateRSI [44, 44.5, 43, 44.25, 44.5, 43.75, 44.65, 45.12, 45.84,
        46.08, 45.89, 46.03, 45.61, 46.28, 46.0] 14 ∧
    calculateRSI [44, 44.5, 43, 44.25, 44.5, 43.75, 44.65, 45.12, 45.84,
        46.08, 45.89, 46.03, 45.61, 46.28, 46.0] 14 < 75 := by
  decide

theorem calculateVWAP_foldl (l : List OHLCData) (a b : ℚ) :
    l.foldl (fun acc d =>
        let typicalPrice := (d.high + d.low + d.close) / 3
        (acc.1 + typicalPrice * d.volume, acc.2 + d.volume)) (a, b) =
      (a + (l.map fun d => (d.high + d.low + d.close) / 3 * d.volume).sum,
       b + (l.map OHLCData.volume).sum) := by
  induction l generalizing a b with
  | nil => simp
  | cons d l ih =>
    simp only [List.foldl_cons, List.map_cons, List.sum_cons, ih, Prod.mk.injEq]
    constructor <;> ring

unseal Rat.add Rat.sub Rat.mul Rat.inv Rat.ofScientific in
/-- C8 counterexample: a single bar with volume 3 and typical price 1/3
yields VWAP 0.3333 (the typical price rounded to 4 decimals), which is not
the typical price itself. -/
theorem calculateVWAP_rounding_counterexample :
    (0 : ℚ) < 3 ∧
    calculateVWAP [⟨0, 0, 1, 0, 0, 3⟩] = 3333 / 10000 ∧
    (3333 / 10000 : ℚ) ≠ ((1 : ℚ) + 0 + 0) / 3 := by
  decide

unseal Rat.add Rat.sub Rat.mul Rat.inv Rat.ofScientific in
/-- C8 (amended): VWAP of the empty bar list is 0; VWAP of a single bar
with positive volume V is that bar's typical price (high+low+close)/3
rounded to 4 decimal places, regardless of V; and VWAP is 0 whenever the
total volume is 0. -/
theorem calculateVWAP_spec :
    calculateVWAP [] = 0 ∧
    (∀ bar : OHLCData, 0 < bar.volume →
      calculateVWAP [bar] = roundTo 4 ((bar.high + bar.low + bar.close) / 3)) ∧
    (∀ bars : List OHLCData, (bars.map OHLCData.volume).sum = 0 →
      calculateVWAP bars = 0) := by
  refine ⟨by decide, ?_, ?_⟩
  · intro bar hvol
    unfold calculateVWAP
    rw [calculateVWAP_foldl]
    simp only [List.map_cons, List.map_nil, List.sum_cons, List.sum_nil, add_zero, zero_add]
    rw [if_pos hvol, mul_div_cancel_right₀ _ (ne_of_gt hvol)]
  · intro bars hsum
    unfold calculateVWAP
    rw [calculateVWAP_foldl, hsum]
    norm_num [roundTo]

/-- Witness for C8 (amended): a bar with typical price 3, and the empty
and zero-volume lists. -/
theorem calculateVWAP_spec_witness :
    calculateVWAP [⟨0, 2, 4, 2, 3, 5⟩] = roundTo 4 ((4 + 2 + 3) / 3) ∧
    calculateVWAP [] = 0 ∧
    calculateVWAP [⟨0, 2, 4, 2, 3, 0⟩] = 0 :=
  ⟨calculateVWAP_spec.2.1 ⟨0, 2, 4, 2, 3, 5⟩ (by norm_num),
   calculateVWAP_spec.1,
   calculateVWAP_spec.2.2 [⟨0, 2, 4, 2, 3, 0⟩] (by simp)⟩

theorem stepOpen_pos (price c vol : ℚ) (hp : 0 < price) (hc0 : 0 ≤ c)
    (hv0 : 0 ≤ vol) (hv1 : vol ≤ 1) :
    0 < price * (1 + (c - 1 / 2) * vol / 50) := by
  apply mul_pos hp
  nlinarith [mul_nonneg hc0 hv0]

theorem stepOHLC (o hR lR cR vol : ℚ) (hopos : 0 < o) (hv0 : 0 ≤ vol) (hv1 : vol ≤ 1)
    (hh0 : 0 ≤ hR) (hl0 : 0 ≤ lR) (hl1 : lR < 1) (hc0 : 0 ≤ cR) (hc1 : cR < 1) :
    o ≤ o * (1 + hR * (vol / 100)) ∧
    0 < o * (1 - lR * (vol / 100)) ∧
    o * (1 - lR * (vol / 100)) ≤ o ∧
    o * (1 - lR * (vol / 100)) ≤
      o * (1 - lR * (vol / 100))
        + cR * (o * (1 + hR * (vol / 100)) - o * (1 - lR * (vol / 100))) ∧
    o * (1 - lR * (vol / 100))
        + cR * (o * (1 + hR * (vol / 100)) - o * (1 - lR * (vol / 100)))
      ≤ o * (1 + hR * (vol / 100)) := by
  have hhi : o ≤ o * (1 + hR * (vol / 100)) := by
    nlinarith [mul_nonneg (mul_nonneg (le_of_lt hopos) hh0) hv0]
  have hlopos : 0 < o * (1 - lR * (vol / 100)) := by
    apply mul_pos hopos
    nlinarith [mul_nonneg (sub_nonneg.mpr (le_of_lt hl1)) hv0]
  have hloo : o * (1 - lR * (vol / 100)) ≤ o := by
    nlinarith [mul_nonneg (mul_nonneg (le_of_lt hopos) hl0) hv0]
  have hlohi : o * (1 - lR * (vol / 100)) ≤ o * (1 + hR * (vol / 100)) :=
    le_trans hloo hhi
  have hclo : o * (1 - lR * (vol / 100)) ≤
      o * (1 - lR * (vol / 100))
        + cR * (o * (1 + hR * (vol / 100)) - o * (1 - lR * (vol / 100))) := by
    nlinarith [mul_nonneg hc0 (sub_nonneg.mpr hlohi)]
  have hchi : o * (1 - lR * (vol / 100))
        + cR * (o * (1 + hR * (vol / 100)) - o * (1 - lR * (vol / 100)))
      ≤ o * (1 + hR * (vol / 100)) := by
    nlinarith [mul_nonneg (sub_nonneg.mpr (le_of_lt hc1)) (sub_nonneg.mpr hlohi)]
  exact ⟨hhi, hlopos, hloo, hclo, hchi⟩

theorem generateHistoricalData_ohlc (volatility : ℚ) (now interval : ℤ)
    (hv0 : 0 ≤ volatility) (hv1 : volatility ≤ 1) :
    ∀ (draws : List BarDraw) (price : ℚ), 0 < price →
      (∀ d ∈ draws, 0 ≤ d.changeR ∧ d.changeR < 1 ∧ 0 ≤ d.highR ∧ d.highR < 1 ∧
        0 ≤ d.lowR ∧ d.lowR < 1 ∧ 0 ≤ d.closeR ∧ d.closeR < 1) →
      ∀ bar ∈ generateHistoricalData volatility now interval price draws,
        max bar.opn bar.close ≤ bar.high ∧ bar.low ≤ min bar.opn bar.close := by
  intro draws
  induction draws with
  | nil =>
    intro price _ _ bar hbar
    simp [generateHistoricalData] at hbar
  | cons d rest ih =>
    intro price hprice hdraws bar hbar
    obtain ⟨hc0, hc1, hh0, hh1, hl0, hl1, hcl0, hcl1⟩ := hdraws d (List.mem_cons_self d rest)
    have hopos := stepOpen_pos price d.changeR volatility hprice hc0 hv0 hv1
    obtain ⟨hhi, hlopos, hloo, hclo, hchi⟩ :=
      stepOHLC (price * (1 + (d.changeR - 1 / 2) * volatility / 50))
        d.highR d.lowR d.closeR volatility hopos hv0 hv1 hh0 hl0 hl1 hcl0 hcl1
    simp only [generateHistoricalData, List.mem_cons] at hbar
    rcases hbar with rfl | h
    · exact ⟨max_le (roundTo_mono hhi) (roundTo_mono hchi),
        le_min (roundTo_mono hloo) (roundTo_mono hclo)⟩
    · exact ih _ (lt_of_lt_of_le hlopos hclo)
        (fun d' hd' => hdraws d' (List.mem_cons_of_mem d hd')) bar h

theorem generateHistoricalData_chain (volatility : ℚ) (now interval : ℤ)
    (hint : 0 < interval) :
    ∀ (draws : List BarDraw) (price : ℚ),
      List.Chain' (fun a b : OHLCData => a.timestamp < b.timestamp)
        (generateHistoricalData volatility now interval price draws) := by
  intro draws
  induction draws with
  | nil =>
    intro price
    simp [generateHistoricalData]
  | cons d rest ih =>
    intro price
    simp only [generateHistoricalData]
    rw [List.chain'_cons']
    constructor
    · intro y hy
      cases rest with
      | nil => simp [generateHistoricalData] at hy
      | cons d' rest' =>
        simp only [generateHistoricalData, List.head?_cons, Option.mem_def,
          Option.some.injEq] at hy
        subst hy
        show now - ((d' :: rest').length : ℤ) * interval
          < now - ((rest' : List BarDraw).length : ℤ) * interval
        simp only [List.length_cons]
        push_cast
        nlinarith
    · exact ih _

/-- C9: every synthesized historical bar series satisfies
`high ≥ max(open, close)` and `low ≤ min(open, close)` for each bar, and
the bars' timestamps are strictly increasing — given that the walk starts
from a positive price, the per-symbol volatility constant lies in [0, 1]
(the source's constants range over 0.3–0.9), the bar interval is positive,
and every `Math.random()` draw lies in [0, 1). -/
theorem generateHistoricalData_spec (volatility : ℚ) (now interval : ℤ)
    (price : ℚ) (draws : List BarDraw)
    (hv0 : 0 ≤ volatility) (hv1 : volatility ≤ 1) (hint : 0 < interval)
    (hprice : 0 < price)
    (hdraws : ∀ d ∈ draws, 0 ≤ d.changeR ∧ d.changeR < 1 ∧ 0 ≤ d.highR ∧ d.highR < 1 ∧
      0 ≤ d.lowR ∧ d.lowR < 1 ∧ 0 ≤ d.closeR ∧ d.closeR < 1) :
    (∀ bar ∈ generateHistoricalData volatility now interval price draws,
      max bar.opn bar.close ≤ bar.high ∧ bar.low ≤ min bar.opn bar.close) ∧
    List.Chain' (fun a b : OHLCData => a.timestamp < b.timestamp)
      (generateHistoricalData volatility now interval price draws) :=
  ⟨generateHistoricalData_ohlc volatility now interval hv0 hv1 draws price hprice hdraws,
   generateHistoricalData_chain volatility now interval hint draws price⟩

/-- Witness for C9: a two-bar series generated with volatility 1/2 from
price 1 at hourly intervals. -/
theorem generateHistoricalData_spec_witness :
    (∀ bar ∈ generateHistoricalData (1 / 2) 0 3600000 1
        [⟨0, 0, 0, 0, 5⟩, ⟨1 / 2, 1 / 2, 1 / 2, 1 / 2, 5⟩],
      max bar.opn bar.close ≤ bar.high ∧ bar.low ≤ min bar.opn bar.close) ∧
    List.Chain' (fun a b : OHLCData => a.timestamp < b.timestamp)
      (generateHistoricalData (1 / 2) 0 3600000 1
        [⟨0, 0, 0, 0, 5⟩, ⟨1 / 2, 1 / 2, 1 / 2, 1 / 2, 5⟩]) :=
  generateHistoricalData_spec (1 / 2) 0 3600000 1
    [⟨0, 0, 0, 0, 5⟩, ⟨1 / 2, 1 / 2, 1 / 2, 1 / 2, 5⟩]
    (by norm_num) (by norm_num) (by norm_num) (by norm_num)
    (by
      intro d hd
      simp only [List.mem_cons, List.not_mem_nil, or_false] at hd
      rcases hd with rfl | rfl <;> norm_num)

/-- C10: `ClaudeAnalysisService.analyzeMarket` never throws or rejects
(it is modelled as a total function): with no API key configured it
returns the deterministic local heuristic analysis, and when the remote
call or its JSON parsing fails it likewise returns the local analysis,
whose `source` is always "enhanced-local-analysis".  Consequently the
multi-AI chain never observes a Claude failure: in single mode a chain
whose Claude backend succeeds always returns a result (the
all-providers-failed error is unreachable via Claude), and in comparative
mode the primary is always Claude's result, so the "Claude failed, fall
through to DeepSeek" and "both remotes failed, use local" branches are
unreachable via Claude errors. -/
theorem claudeAnalyzeMarket_total_spec :
    (∀ (request : AnalysisRequest) (remote : Except String AnalysisResponse),
      claudeAnalyzeMarket false remote request = enhancedLocalAnalysis request) ∧
    (∀ (request : AnalysisRequest) (e : String),
      claudeAnalyzeMarket true (.error e) request = enhancedLocalAnalysis request) ∧
    (∀ request : AnalysisRequest,
      (enhancedLocalAnalysis request).source = "enhanced-local-analysis") ∧
    (∀ (backends : AIProvider → Except String AnalysisResponse) (pref : String)
        (res : AnalysisResponse),
      backends AIProvider.claude = .ok res →
      ∃ a, runSingleAnalysis backends pref = .ok a) ∧
    (∀ (hasKey : Bool) (remote deepSeekRes : Except String AnalysisResponse)
        (request : AnalysisRequest) (localRes : AnalysisResponse),
      (runComparativeAnalysis
          (callProvider hasKey remote deepSeekRes request AIProvider.claude)
          deepSeekRes localRes).primary = claudeAnalyzeMarket hasKey remote request) := by
  refine ⟨fun request remote => rfl, fun request e => rfl, fun request => rfl, ?_, ?_⟩
  · intro backends pref res h
    exact runSingleAnalysisAux_mem_ok backends AIProvider.claude res h _ 0 none
      (claude_mem_getProviderOrder pref)
  · intro hasKey remote deepSeekRes request localRes
    show (runComparativeAnalysis (.ok (claudeAnalyzeMarket hasKey remote request))
      deepSeekRes localRes).primary = _
    cases deepSeekRes with
    | ok d => rfl
    | error e => rfl

/-- Witness for C10: with every backend answering Claude's (always
successful) result, the single-mode chain returns a result. -/
theorem claudeAnalyzeMarket_total_spec_witness :
    ∃ a, runSingleAnalysis (fun _ => Except.ok sampleResponse) "auto" = Except.ok a :=
  claudeAnalyzeMarket_total_spec.2.2.2.1 (fun _ => Except.ok sampleResponse) "auto"
    sampleResponse rfl

end Trading
